import Mathlib

/-!
# Verification of the `httpclient` package

A shallow embedding of the Go package `httpclient` (a thin JSON-centric
wrapper around `net/http`) together with proofs about its request
construction, option folding, transport selection and response handling.

Modelling conventions:
* Machine byte sequences (`[]byte`) are `List Nat` of byte values.
* Go `error` values are strings; `fmt.Errorf("msg: %w", err)` wrapping is
  string concatenation of the message, `": "` and the cause.
* Mutation through pointers (`*int` status sinks, the `interface{}` result
  sink, option closures over `*Options`) is explicit state passing: each
  call returns the values written to the sinks alongside the error.
* Calls into the external collaborators (marshal, transport, unmarshal)
  are recorded in an event trace so that "the collaborator is never
  invoked" is expressible.
* Go maps are unordered; they are embedded as association lists in a
  canonical representation (existing key erased, new binding appended).
-/

namespace HttpClientGo

/-- A Go `[]byte` value: the list of its byte values. -/
abbrev Bytes := List Nat

/-- The universe of Go values that can be passed as a request body or
decoded from a response in this model: a raw `[]byte`, a
`map[string]string`-like value, or a value `encoding/json` cannot
serialize (such as a channel). -/
inductive GoValue where
  | bytes : Bytes → GoValue
  | mapVal : List (String × String) → GoValue
  | chanVal : GoValue
deriving DecidableEq, Repr

/-- A `context.Context`; its cancellation behaviour lives in the external
transport and is outside this model, so only its identity is kept. -/
inductive Context where
  | background
deriving DecidableEq, Repr

/-! ## Header keys: `net/textproto.CanonicalMIMEHeaderKey` -/

/-- `net/textproto.validHeaderFieldByte`: bytes allowed in a header field
name (RFC 7230 token characters). -/
def validHeaderFieldByte (c : Char) : Bool :=
  c.isAlphanum ||
    [33, 35, 36, 37, 38, 39, 42, 43, 45, 46, 94, 95, 96, 124, 126].contains c.toNat

/-- The rewriting loop of `canonicalMIMEHeaderKey`: uppercase the first
letter and each letter following a dash, lowercase every other letter. -/
def canonChars : Bool → List Char → List Char
  | _, [] => []
  | upper, c :: cs =>
    let c2 := if upper then c.toUpper else c.toLower
    c2 :: canonChars (c2 = '-') cs

/-- `net/textproto.CanonicalMIMEHeaderKey`: canonicalize a header key,
or return it unchanged when it contains a byte that is not a valid
header-field byte. -/
def canonicalKey (s : String) : String :=
  if s.data.all validHeaderFieldByte then ⟨canonChars true s.data⟩ else s

/-! ## `http.Header`

`http.Header` is `map[string][]string`; this client only ever touches it
through `Header.Set`, which stores a single value under the canonical
key, so a header is embedded as an association list of canonical key /
single value pairs in canonical representation. -/

abbrev Header := List (String × String)

/-- Remove every binding for key `k` from an association list. -/
def eraseKey : List (String × String) → String → List (String × String)
  | [], _ => []
  | p :: rest, k => if p.1 = k then eraseKey rest k else p :: eraseKey rest k

/-- First value bound to key `k`, if any. -/
def lookupVal : List (String × String) → String → Option String
  | [], _ => none
  | p :: rest, k => if p.1 = k then some p.2 else lookupVal rest k

/-- `http.Header.Set`: store `v` as the sole value under the canonical
form of `k`. -/
def headerSet (h : Header) (k v : String) : Header :=
  eraseKey h (canonicalKey k) ++ [(canonicalKey k, v)]

/-- `http.Header.Get`: the value stored under the canonical form of `k`. -/
def headerGet (h : Header) (k : String) : Option String :=
  lookupVal h (canonicalKey k)

/-- Go map assignment `m[k] = v` on a `map[string]string` (canonical
association-list representation; Go maps are unordered). -/
def mapSet (m : List (String × String)) (k v : String) : List (String × String) :=
  eraseKey m k ++ [(k, v)]

/-! ## External collaborator `encoding/json` (restricted to `GoValue`) -/

/-- Byte value of the `i`-th character of the standard base64 alphabet. -/
def b64Byte (i : Nat) : Nat :=
  (("ABCDEFGHIJKLMNOPQRSTUVWXYZabcdefghijklmnopqrstuvwxyz0123456789+/".data.getD i 'A').toNat)

/-- Standard base64 encoding of a byte sequence (61 is the pad byte `=`). -/
def base64Encode : Bytes → Bytes
  | [] => []
  | [a] => [b64Byte (a / 4), b64Byte (a % 4 * 16), 61, 61]
  | [a, b] => [b64Byte (a / 4), b64Byte (a % 4 * 16 + b / 16), b64Byte (b % 16 * 4), 61]
  | a :: b :: c :: rest =>
    b64Byte (a / 4) :: b64Byte (a % 4 * 16 + b / 16) ::
      b64Byte (b % 16 * 4 + c / 64) :: b64Byte (c % 64) :: base64Encode rest

/-- Byte values of the characters of a string. -/
def strBytes (s : String) : Bytes := s.data.map Char.toNat

/-- JSON text of a flat string-to-string object, keys in Go's sorted map
order (34 is the quote byte, 58 the colon, 44 the comma, 123/125 the
braces; keys and values from the modelled universe need no escaping). -/
def jsonObjectBytes (kvs : List (String × String)) : Bytes :=
  let entry := fun (p : String × String) =>
    34 :: strBytes p.1 ++ [34, 58, 34] ++ strBytes p.2 ++ [34]
  let sorted := kvs.mergeSort (fun a b => a.1 ≤ b.1)
  123 :: List.intercalate [44] (sorted.map entry) ++ [125]

/-- External collaborator `encoding/json.Marshal`, restricted to the
modelled `GoValue` universe: a `[]byte` marshals to a quoted base64
string, a string map to a JSON object with sorted keys, and an
unsupported value (a channel) fails. -/
def jsonMarshal : GoValue → Except String Bytes
  | .bytes b => .ok (34 :: base64Encode b ++ [34])
  | .mapVal kvs => .ok (jsonObjectBytes kvs)
  | .chanVal => .error "json: unsupported type: chan int"

/-- Read a JSON string body up to the closing quote: returns the content
bytes and the input after the quote (escapes are outside the modelled
universe). -/
def takeJsonString : List Nat → Option (List Nat × List Nat)
  | [] => none
  | c :: rest =>
    if c = 34 then some ([], rest)
    else if c = 92 then none
    else (takeJsonString rest).map fun p => (c :: p.1, p.2)

/-- String from byte values. -/
def bytesToString (l : List Nat) : String := ⟨l.map Char.ofNat⟩

/-- Parse the members of a flat JSON object after the opening brace,
consuming the closing brace, which must end the input. -/
def parseMembers : Nat → List Nat → Option (List (String × String))
  | 0, _ => none
  | fuel + 1, input =>
    match input with
    | 34 :: rest =>
      match takeJsonString rest with
      | none => none
      | some (k, r1) =>
        match r1 with
        | 58 :: 34 :: r2 =>
          match takeJsonString r2 with
          | none => none
          | some (v, r3) =>
            match r3 with
            | [125] => some [(bytesToString k, bytesToString v)]
            | 44 :: r4 =>
              (parseMembers fuel r4).map fun ms => (bytesToString k, bytesToString v) :: ms
            | _ => none
        | _ => none
    | _ => none

/-- External collaborator `encoding/json.Unmarshal`, restricted to the
modelled universe: accepts a flat JSON object of strings and yields the
corresponding map value; everything else is a decode error. -/
def jsonUnmarshal (data : Bytes) : Except String GoValue :=
  match data with
  | 123 :: rest =>
    match rest with
    | [125] => .ok (.mapVal [])
    | _ =>
      match parseMembers data.length rest with
      | some ms => .ok (.mapVal ms)
      | none => .error "invalid character"
  | _ => .error "invalid character"

/-! ## Requests, responses, transports -/

/-- An `*http.Request` as this client builds one: method, URL, the wire
body bytes and the header; the attached context rides along for the
transport. -/
structure Request where
  ctx : Context
  method : String
  url : String
  body : Bytes
  header : Header
deriving DecidableEq, Repr

/-- An `*http.Response` as this client consumes one: numeric status
code, status line, and the outcome of draining the body stream
(`io.ReadAll` can fail). -/
structure Response where
  statusCode : Nat
  status : String
  body : Except String Bytes

/-- The external transport capability (`*http.Client`): sends a
fully-formed request and yields a response or a transport error. -/
def HttpClient := Request → Except String Response

/-- External collaborator `http.DefaultClient`. Its network behaviour is
outside the model; it stands in as a transport whose responses are not
constrained (claims about it concern only which transport is selected). -/
def defaultHttpClient : HttpClient := fun _ => .error "dial tcp: network unreachable"

/-- External collaborator `http.NewRequestWithContext`. URL and method
validation belongs to `net/http` and no claim depends on it, so it is
abstracted as always succeeding with an empty header. -/
def newRequestWithContext (ctx : Context) (method url : String) (body : Bytes) :
    Except String Request :=
  .ok { ctx := ctx, method := method, url := url, body := body, header := [] }

/-- Trace of calls into the three external collaborators. -/
inductive Event where
  | marshalCall : GoValue → Event
  | transportCall : Request → Event
  | unmarshalCall : Bytes → Event
deriving DecidableEq, Repr

/-- The requests handed to the transport, in trace order. -/
def sentRequests (evs : List Event) : List Request :=
  evs.filterMap fun e =>
    match e with
    | .transportCall r => some r
    | _ => none

/-- The bodies handed to the marshal step, in trace order. -/
def marshalCalls (evs : List Event) : List GoValue :=
  evs.filterMap fun e =>
    match e with
    | .marshalCall v => some v
    | _ => none

/-- The payloads handed to the unmarshal step, in trace order. -/
def unmarshalCalls (evs : List Event) : List Bytes :=
  evs.filterMap fun e =>
    match e with
    | .unmarshalCall b => some b
    | _ => none

/-! ## `Options` and the functional options (options.go) -/

/-- `Options` from options.go. `Headers` is a possibly-nil Go map
(`none` is the nil map); `Status` is a `*int` sink, modelled by whether
a sink was supplied (the written value is part of each call's outcome);
`Client` is the per-request transport override. -/
structure Options where
  headers : Option (List (String × String)) := none
  hasStatus : Bool := false
  client : Option HttpClient := none

/-- `Option` from options.go: `func(*Options)`, a mutator over
`Options`. -/
def OptionFn := Options → Options

/-- `WithHeaders`: sets the whole header map for the request. -/
def withHeaders (headers : List (String × String)) : OptionFn :=
  fun o => { o with headers := some headers }

/-- `WithHeader`: sets a single header, allocating the map when it is
still nil. -/
def withHeader (key value : String) : OptionFn :=
  fun o =>
    match o.headers with
    | none => { o with headers := some (mapSet [] key value) }
    | some m => { o with headers := some (mapSet m key value) }

/-- `WithStatus`: supplies a status-capture sink. -/
def withStatus : OptionFn :=
  fun o => { o with hasStatus := true }

/-- `WithClient`-style per-call transport override: `Options.Client` is
an exported field, set from a caller-written option closure (the package
ships no named constructor for it). -/
def withClientOverride (cl : HttpClient) : OptionFn :=
  fun o => { o with client := some cl }

/-- `buildOptions`: fold the option mutators left-to-right over a
zero-valued `Options`. -/
def buildOptions (opts : List OptionFn) : Options :=
  opts.foldl (fun o f => f o) {}

/-! ## The `Client` (client.go) -/

/-- `Client` from client.go: optional transport, optional marshal
function, optional unmarshal function. The Go `UnmarshalFunc` writes
through an `interface{}` pointer; here it returns the decoded value. -/
structure Client where
  client : Option HttpClient := none
  marshalFunc : Option (GoValue → Except String Bytes) := none
  unmarshalFunc : Option (Bytes → Except String GoValue) := none

/-- `Client.marshal`: the configured marshal function, defaulting to
`json.Marshal`. -/
def Client.marshal (c : Client) (v : GoValue) : Except String Bytes :=
  match c.marshalFunc with
  | some f => f v
  | none => jsonMarshal v

/-- `Client.unmarshal`: the configured unmarshal function, defaulting to
`json.Unmarshal`. -/
def Client.unmarshal (c : Client) (data : Bytes) : Except String GoValue :=
  match c.unmarshalFunc with
  | some f => f data
  | none => jsonUnmarshal data

/-- `Client.getClient`: the per-call override if present, else the
Client's own transport, else `http.DefaultClient`. -/
def Client.getClient (c : Client) (options : Options) : HttpClient :=
  match options.client with
  | some cl => cl
  | none =>
    match c.client with
    | none => defaultHttpClient
    | some cl => cl

/-- The header-application loop of `buildRequest`:
`for key, value := range options.Headers { req.Header.Set(key, value) }`
(a nil map applies nothing; Go map iteration order is unspecified, the
association list's order is used). -/
def applyHeaders (req : Request) (hs : Option (List (String × String))) : Request :=
  { req with header := (hs.getD []).foldl (fun h p => headerSet h p.1 p.2) req.header }

/-- `Client.buildRequest`: marshal the body when one is supplied (a nil
body yields an empty payload), create the request, apply the option
headers. The trace records the marshal invocation. -/
def Client.buildRequest (c : Client) (ctx : Context) (method url : String)
    (body : Option GoValue) (options : Options) : Except String Request × List Event :=
  let finish := fun (bodyBytes : Bytes) =>
    match newRequestWithContext ctx method url bodyBytes with
    | .error e => Except.error ("failed to create request: " ++ e)
    | .ok req => Except.ok (applyHeaders req options.headers)
  match body with
  | none => (finish [], [])
  | some v =>
    match c.marshal v with
    | .error e => (.error ("failed to marshal request body: " ++ e), [.marshalCall v])
    | .ok bodyBytes => (finish bodyBytes, [.marshalCall v])

/-- Everything a call writes back to its caller: the returned error, the
value written to the status sink (if any), the value decoded into the
result sink (if any), and the collaborator trace. -/
structure CallOutcome where
  error : Option String
  statusWritten : Option Nat
  resultWritten : Option GoValue
  events : List Event

/-- `Client.parseResponse`: write the status sink first; without a sink a
status of 400 or more aborts with an HTTP error before the body is
touched; otherwise read the body and, when a result sink was supplied,
unmarshal into it — a failed unmarshal is suppressed exactly when a
status sink was supplied and the status is 400 or more. -/
def Client.parseResponse (c : Client) (resp : Response) (hasResult : Bool)
    (options : Options) : CallOutcome :=
  let sw := if options.hasStatus then some resp.statusCode else none
  if options.hasStatus = false ∧ 400 ≤ resp.statusCode then
    { error := some ("HTTP error: " ++ resp.status),
      statusWritten := sw, resultWritten := none, events := [] }
  else
    match resp.body with
    | .error e =>
      { error := some ("failed to read response body: " ++ e),
        statusWritten := sw, resultWritten := none, events := [] }
    | .ok body =>
      if hasResult then
        match c.unmarshal body with
        | .ok v =>
          { error := none, statusWritten := sw, resultWritten := some v,
            events := [.unmarshalCall body] }
        | .error e =>
          if options.hasStatus = true ∧ 400 ≤ resp.statusCode then
            { error := none, statusWritten := sw, resultWritten := none,
              events := [.unmarshalCall body] }
          else
            { error := some ("failed to unmarshal JSON response: " ++ e),
              statusWritten := sw, resultWritten := none,
              events := [.unmarshalCall body] }
      else
        { error := none, statusWritten := sw, resultWritten := none, events := [] }

/-- The per-verb body shared verbatim by the five operations: fold the
options, build the request (wrapping a failure as a failed creation for
the verb), optionally force `Content-Type: application/json`, select the
transport, dispatch (wrapping a failure as a failed call for the verb),
and interpret the response. -/
def Client.run (c : Client) (verb : String) (forceJson : Bool) (ctx : Context)
    (url : String) (body : Option GoValue) (hasResult : Bool)
    (opts : List OptionFn) : CallOutcome :=
  let options := buildOptions opts
  match c.buildRequest ctx verb url body options with
  | (.error e, evs) =>
    { error := some ("failed to create " ++ verb ++ " request: " ++ e),
      statusWritten := none, resultWritten := none, events := evs }
  | (.ok req0, evs) =>
    let req := if forceJson
      then { req0 with header := headerSet req0.header "Content-Type" "application/json" }
      else req0
    let cl := c.getClient options
    match cl req with
    | .error e =>
      { error := some ("failed to make " ++ verb ++ " request: " ++ e),
        statusWritten := none, resultWritten := none,
        events := evs ++ [.transportCall req] }
    | .ok resp =>
      let p := c.parseResponse resp hasResult options
      { p with events := evs ++ [.transportCall req] ++ p.events }

/-- `Client.Get`. -/
def Client.get (c : Client) (ctx : Context) (url : String) (hasResult : Bool)
    (opts : List OptionFn) : CallOutcome :=
  c.run "GET" false ctx url none hasResult opts

/-- `Client.Post`: sends a JSON body and forces
`Content-Type: application/json` after the option headers. -/
def Client.post (c : Client) (ctx : Context) (url : String) (body : Option GoValue)
    (hasResult : Bool) (opts : List OptionFn) : CallOutcome :=
  c.run "POST" true ctx url body hasResult opts

/-- `Client.Patch`: sends a JSON body and forces
`Content-Type: application/json` after the option headers. -/
def Client.patch (c : Client) (ctx : Context) (url : String) (body : Option GoValue)
    (hasResult : Bool) (opts : List OptionFn) : CallOutcome :=
  c.run "PATCH" true ctx url body hasResult opts

/-- Modelled from the spec: the `Client.Put` method is declared by the
facade, the README and the spec but its body is not among the given
source files. Per the spec it follows the identical step sequence with
verb PUT, sends a body, and — like GET and DELETE and unlike POST and
PATCH — forces no Content-Type header. -/
def Client.put (c : Client) (ctx : Context) (url : String) (body : Option GoValue)
    (hasResult : Bool) (opts : List OptionFn) : CallOutcome :=
  c.run "PUT" false ctx url body hasResult opts

/-- `Client.Delete`. -/
def Client.delete (c : Client) (ctx : Context) (url : String) (hasResult : Bool)
    (opts : List OptionFn) : CallOutcome :=
  c.run "DELETE" false ctx url none hasResult opts

/-! ## The default facade (default_client.go) -/

/-- The process-wide default client, with no overrides. -/
def defaultClient : Client := {}

/-- Package-level `Get`: delegates to the default client. -/
def get (ctx : Context) (url : String) (hasResult : Bool) (opts : List OptionFn) :
    CallOutcome :=
  defaultClient.get ctx url hasResult opts

/-- Package-level `Post`: delegates to the default client. -/
def post (ctx : Context) (url : String) (body : Option GoValue) (hasResult : Bool)
    (opts : List OptionFn) : CallOutcome :=
  defaultClient.post ctx url body hasResult opts

/-- Package-level `Patch`: delegates to the default client. -/
def patch (ctx : Context) (url : String) (body : Option GoValue) (hasResult : Bool)
    (opts : List OptionFn) : CallOutcome :=
  defaultClient.patch ctx url body hasResult opts

/-- Package-level `Put`: delegates to the default client. -/
def put (ctx : Context) (url : String) (body : Option GoValue) (hasResult : Bool)
    (opts : List OptionFn) : CallOutcome :=
  defaultClient.put ctx url body hasResult opts

/-- Package-level `Delete`: delegates to the default client. -/
def delete (ctx : Context) (url : String) (hasResult : Bool) (opts : List OptionFn) :
    CallOutcome :=
  defaultClient.delete ctx url hasResult opts

/-! ## Association list and header lemmas -/

theorem lookupVal_append (l1 l2 : List (String × String)) (k : String) :
    lookupVal (l1 ++ l2) k =
      match lookupVal l1 k with
      | some v => some v
      | none => lookupVal l2 k := by
  induction l1 with
  | nil => rfl
  | cons p rest ih => by_cases h : p.1 = k <;> simp [lookupVal, h, ih]

theorem lookupVal_eraseKey_self (l : List (String × String)) (k : String) :
    lookupVal (eraseKey l k) k = none := by
  induction l with
  | nil => rfl
  | cons p rest ih => by_cases h : p.1 = k <;> simp [eraseKey, lookupVal, h, ih]

theorem lookupVal_eraseKey_ne (l : List (String × String)) (k q : String)
    (hne : q ≠ k) : lookupVal (eraseKey l k) q = lookupVal l q := by
  induction l with
  | nil => rfl
  | cons p rest ih =>
    by_cases h1 : p.1 = k
    · have hpq : ¬p.1 = q := fun h2 => hne (h2 ▸ h1)
      simp only [eraseKey, lookupVal, if_pos h1, if_neg hpq, ih]
    · by_cases h2 : p.1 = q
      · simp [eraseKey, lookupVal, h1, h2, hne]
      · simp [eraseKey, lookupVal, h1, h2, ih]

/-- `Header.Get` after `Header.Set`: the set value under the same
canonical key, the previous value otherwise. -/
theorem headerGet_headerSet (h : Header) (k v q : String) :
    headerGet (headerSet h k v) q =
      if canonicalKey q = canonicalKey k then some v else headerGet h q := by
  unfold headerGet headerSet
  rw [lookupVal_append]
  by_cases hqk : canonicalKey q = canonicalKey k
  · rw [if_pos hqk, hqk, lookupVal_eraseKey_self]
    simp [lookupVal]
  · rw [if_neg hqk, lookupVal_eraseKey_ne _ _ _ hqk]
    cases lookupVal h (canonicalKey q) <;> simp [lookupVal, Ne.symm hqk]

/-- Applying headers none of which lives under canonical key `q` leaves
the value under `q` unchanged. -/
theorem headerGet_foldl_of_ne (l : List (String × String)) (h : Header) (q : String)
    (hq : ∀ p ∈ l, canonicalKey p.1 ≠ canonicalKey q) :
    headerGet (l.foldl (fun acc p => headerSet acc p.1 p.2) h) q = headerGet h q := by
  induction l generalizing h with
  | nil => rfl
  | cons p rest ih =>
    rw [List.foldl_cons, ih _ (fun x hx => hq x (List.mem_cons_of_mem _ hx))]
    rw [headerGet_headerSet,
      if_neg (fun hcon => hq p (List.mem_cons_self _ _) hcon.symm)]

theorem sentRequests_append (l1 l2 : List Event) :
    sentRequests (l1 ++ l2) = sentRequests l1 ++ sentRequests l2 :=
  List.filterMap_append ..

/-- Response interpretation talks only to the unmarshal collaborator,
never to the transport. -/
theorem parse_events_no_transport (c : Client) (resp : Response) (hasResult : Bool)
    (options : Options) :
    sentRequests (c.parseResponse resp hasResult options).events = [] := by
  simp only [Client.parseResponse]
  split
  · rfl
  · split
    · rfl
    · split
      · split
        · rfl
        · split <;> rfl
      · rfl

/-- Request construction talks only to the marshal collaborator, never
to the transport. -/
theorem buildRequest_events_no_transport (c : Client) (ctx : Context)
    (method url : String) (body : Option GoValue) (options : Options) :
    sentRequests (c.buildRequest ctx method url body options).2 = [] := by
  cases body with
  | none => rfl
  | some v =>
    cases hm : c.marshal v with
    | error e => simp only [Client.buildRequest, hm]; rfl
    | ok bs => simp only [Client.buildRequest, hm]; rfl

/-- The requests a call hands to the transport: none when request
construction fails, and exactly the built request (with the forced
Content-Type when the verb demands one) otherwise — whether or not the
dispatch itself then fails. -/
theorem run_sentRequests (c : Client) (verb : String) (fj : Bool) (ctx : Context)
    (url : String) (body : Option GoValue) (hasResult : Bool) (opts : List OptionFn) :
    sentRequests (Client.run c verb fj ctx url body hasResult opts).events =
      match (c.buildRequest ctx verb url body (buildOptions opts)).1 with
      | .error _ => []
      | .ok req0 =>
        [if fj then { req0 with
            header := headerSet req0.header "Content-Type" "application/json" }
          else req0] := by
  have hevs := buildRequest_events_no_transport c ctx verb url body (buildOptions opts)
  simp only [Client.run]
  rcases hbr : c.buildRequest ctx verb url body (buildOptions opts) with ⟨res, evs⟩
  rw [hbr] at hevs
  replace hevs : sentRequests evs = [] := hevs
  cases res with
  | error e => exact hevs
  | ok req0 =>
    dsimp only
    cases htr : (c.getClient (buildOptions opts))
        (if fj then { req0 with
            header := headerSet req0.header "Content-Type" "application/json" }
          else req0) with
    | error e =>
      dsimp only
      rw [sentRequests_append, hevs]
      rfl
    | ok resp =>
      dsimp only
      rw [sentRequests_append, sentRequests_append, hevs,
        parse_events_no_transport]
      rfl

/-- The header of a successfully built request is exactly the option
headers folded over the empty header. -/
theorem buildRequest_ok_header (c : Client) (ctx : Context) (method url : String)
    (body : Option GoValue) (options : Options) (req : Request)
    (h : (c.buildRequest ctx method url body options).1 = .ok req) :
    req.header = (options.headers.getD []).foldl (fun acc p => headerSet acc p.1 p.2) [] := by
  cases body with
  | none =>
    simp only [Client.buildRequest, newRequestWithContext] at h
    cases h
    rfl
  | some v =>
    cases hm : c.marshal v with
    | error e => simp only [Client.buildRequest, hm] at h; simp at h
    | ok bs =>
      simp only [Client.buildRequest, hm, newRequestWithContext] at h
      cases h
      rfl

/-- A call that fails in the marshal step returns the wrapped
construction error and leaves only the marshal invocation in the trace. -/
theorem run_marshal_failure (c : Client) (verb : String) (fj : Bool) (ctx : Context)
    (url : String) (v : GoValue) (hasResult : Bool) (opts : List OptionFn) (e : String)
    (hm : c.marshal v = .error e) :
    Client.run c verb fj ctx url (some v) hasResult opts =
      { error := some ("failed to create " ++ verb ++ " request: "
          ++ ("failed to marshal request body: " ++ e)),
        statusWritten := none, resultWritten := none,
        events := [.marshalCall v] } := by
  simp only [Client.run, Client.buildRequest, hm]

/-! ## Claim theorems -/

/-- C2. The Configurable Client exposes a PUT operation of the shape
`PUT(ctx, url, body, result, options...) -> error` alongside GET, POST,
PATCH and DELETE, and the Default Facade's free `Put` function delegates
to it on the process-wide default client, all arguments passed through
unchanged. -/
theorem put_exposed_and_facade_delegates (ctx : Context) (url : String)
    (body : Option GoValue) (hasResult : Bool) (opts : List OptionFn) :
    put ctx url body hasResult opts =
      Client.put defaultClient ctx url body hasResult opts := rfl

/-- C3. When the result sink is non-null and decoding the (successfully
read) body fails, the call returns success exactly when a status-capture
sink was supplied and the status code is at least 400; in every other
reachable case (status below 400, with or without a sink) it returns a
decode error wrapping the unmarshal failure. -/
theorem decode_failure_suppression_policy (c : Client) (resp : Response)
    (options : Options) (body : Bytes) (e : String)
    (hb : resp.body = .ok body)
    (hf : c.unmarshal body = .error e)
    (hreach : options.hasStatus = true ∨ resp.statusCode < 400) :
    (c.parseResponse resp true options).error =
      if options.hasStatus = true ∧ 400 ≤ resp.statusCode then none
      else some ("failed to unmarshal JSON response: " ++ e) := by
  have h1 : ¬(options.hasStatus = false ∧ 400 ≤ resp.statusCode) := by
    rcases hreach with h | h
    · rintro ⟨h2, _⟩; rw [h] at h2; cases h2
    · rintro ⟨_, h2⟩; omega
  simp only [Client.parseResponse, if_neg h1, hb]
  by_cases hP : options.hasStatus = true ∧ 400 ≤ resp.statusCode <;>
    simp [hP, hf]

/-- Witness for C3: a 404 response with a non-JSON body, a failing
unmarshal and a status sink yields a nil error (suppression), while the
same response without the 400-or-more status (a 200) yields the decode
error. -/
theorem decode_failure_suppression_policy_witness :
    (Client.parseResponse { unmarshalFunc := some (fun _ => .error "bad") }
        { statusCode := 404, status := "404 Not Found", body := .ok (strBytes "not found") }
        true { hasStatus := true }).error = none ∧
    (Client.parseResponse { unmarshalFunc := some (fun _ => .error "bad") }
        { statusCode := 200, status := "200 OK", body := .ok (strBytes "not json") }
        true { hasStatus := true }).error =
      some ("failed to unmarshal JSON response: " ++ "bad") := by
  constructor
  · have h := decode_failure_suppression_policy
      { unmarshalFunc := some (fun _ => .error "bad") }
      { statusCode := 404, status := "404 Not Found", body := .ok (strBytes "not found") }
      { hasStatus := true } (strBytes "not found") "bad" rfl rfl (Or.inl rfl)
    rw [h]; norm_num
  · have h := decode_failure_suppression_policy
      { unmarshalFunc := some (fun _ => .error "bad") }
      { statusCode := 200, status := "200 OK", body := .ok (strBytes "not json") }
      { hasStatus := true } (strBytes "not json") "bad" rfl rfl (Or.inr (by norm_num))
    rw [h]; norm_num

/-- C4. A response of status at least 400 with no status-capture sink
makes the call return the HTTP-status error carrying the status line,
with the unmarshal collaborator never invoked and nothing written to the
result sink. -/
theorem http_error_without_status_sink (c : Client) (resp : Response)
    (hasResult : Bool) (options : Options)
    (hs : options.hasStatus = false) (hc : 400 ≤ resp.statusCode) :
    (c.parseResponse resp hasResult options).error =
      some ("HTTP error: " ++ resp.status) ∧
    unmarshalCalls (c.parseResponse resp hasResult options).events = [] ∧
    (c.parseResponse resp hasResult options).resultWritten = none := by
  simp [Client.parseResponse, hs, hc, unmarshalCalls]

/-- Witness for C4: a 404 with no options at all returns the HTTP error,
no unmarshal call, no result write. -/
theorem http_error_without_status_sink_witness :
    (Client.parseResponse {}
        { statusCode := 404, status := "404 Not Found", body := .ok (strBytes "not found") }
        true {}).error = some ("HTTP error: " ++ "404 Not Found") ∧
    unmarshalCalls (Client.parseResponse {}
        { statusCode := 404, status := "404 Not Found", body := .ok (strBytes "not found") }
        true {}).events = [] ∧
    (Client.parseResponse {}
        { statusCode := 404, status := "404 Not Found", body := .ok (strBytes "not found") }
        true {}).resultWritten = none :=
  http_error_without_status_sink {}
    { statusCode := 404, status := "404 Not Found", body := .ok (strBytes "not found") }
    true {} rfl (by norm_num)

/-- C5. Whenever a status-capture sink was supplied, response handling
writes the exact numeric status code into it, for every status value and
independently of the decode outcome. -/
theorem status_sink_always_receives_code (c : Client) (resp : Response)
    (hasResult : Bool) (options : Options) (h : options.hasStatus = true) :
    (c.parseResponse resp hasResult options).statusWritten = some resp.statusCode := by
  simp only [Client.parseResponse, h]
  split
  · rfl
  · split
    · rfl
    · split
      · split
        · rfl
        · split <;> rfl
      · rfl

/-- Witness for C5: the sink receives 200 on a success and 404 on an
error status with a failing decode alike. -/
theorem status_sink_always_receives_code_witness :
    (Client.parseResponse {}
        { statusCode := 200, status := "200 OK", body := .ok [] }
        false { hasStatus := true }).statusWritten = some 200 ∧
    (Client.parseResponse { unmarshalFunc := some (fun _ => .error "bad") }
        { statusCode := 404, status := "404 Not Found", body := .ok (strBytes "not found") }
        true { hasStatus := true }).statusWritten = some 404 :=
  ⟨status_sink_always_receives_code {}
      { statusCode := 200, status := "200 OK", body := .ok [] }
      false { hasStatus := true } rfl,
    status_sink_always_receives_code { unmarshalFunc := some (fun _ => .error "bad") }
      { statusCode := 404, status := "404 Not Found", body := .ok (strBytes "not found") }
      true { hasStatus := true } rfl⟩

/-- C7. A body-bearing call (POST, PATCH, PUT) whose marshal step fails
returns an error that wraps the marshal failure inside a failed
request-construction message for the verb, and hands no request to the
transport. -/
theorem marshal_failure_aborts_before_transport (c : Client) (ctx : Context)
    (url : String) (v : GoValue) (hasResult : Bool) (opts : List OptionFn) (e : String)
    (hm : c.marshal v = .error e) :
    ((Client.post c ctx url (some v) hasResult opts).error =
        some ("failed to create POST request: "
          ++ ("failed to marshal request body: " ++ e)) ∧
      sentRequests (Client.post c ctx url (some v) hasResult opts).events = []) ∧
    ((Client.patch c ctx url (some v) hasResult opts).error =
        some ("failed to create PATCH request: "
          ++ ("failed to marshal request body: " ++ e)) ∧
      sentRequests (Client.patch c ctx url (some v) hasResult opts).events = []) ∧
    ((Client.put c ctx url (some v) hasResult opts).error =
        some ("failed to create PUT request: "
          ++ ("failed to marshal request body: " ++ e)) ∧
      sentRequests (Client.put c ctx url (some v) hasResult opts).events = []) := by
  have hp := run_marshal_failure c "POST" true ctx url v hasResult opts e hm
  have hpa := run_marshal_failure c "PATCH" true ctx url v hasResult opts e hm
  have hpu := run_marshal_failure c "PUT" false ctx url v hasResult opts e hm
  refine ⟨⟨?_, ?_⟩, ⟨?_, ?_⟩, ⟨?_, ?_⟩⟩ <;>
    simp [Client.post, Client.patch, Client.put, hp, hpa, hpu, sentRequests]

/-- Witness for C7: POSTing a channel value (which `json.Marshal`
rejects) on the default configuration returns the wrapped construction
error and the transport sees no request. -/
theorem marshal_failure_aborts_before_transport_witness :
    (Client.post {} .background "https://example" (some .chanVal) true []).error =
      some ("failed to create POST request: "
        ++ ("failed to marshal request body: " ++ "json: unsupported type: chan int")) ∧
    sentRequests (Client.post {} .background "https://example"
      (some .chanVal) true []).events = [] :=
  ⟨(marshal_failure_aborts_before_transport {} .background "https://example"
      .chanVal true [] "json: unsupported type: chan int" rfl).1.1,
    (marshal_failure_aborts_before_transport {} .background "https://example"
      .chanVal true [] "json: unsupported type: chan int" rfl).1.2⟩

/-- C9. The transport used for a call follows the precedence: per-call
override from the options when present, otherwise the Client's own
transport when set, otherwise the platform default transport. -/
theorem transport_selection_precedence (c : Client) (o : Options) :
    (∀ t : HttpClient, o.client = some t → c.getClient o = t) ∧
    (o.client = none → ∀ t : HttpClient, c.client = some t → c.getClient o = t) ∧
    (o.client = none → c.client = none → c.getClient o = defaultHttpClient) := by
  refine ⟨fun t ht => ?_, fun ho t ht => ?_, fun ho hc => ?_⟩ <;>
    simp [Client.getClient, *]

/-- A distinguished transport standing in for a per-call override. -/
def overrideTransport : HttpClient :=
  fun _ => .error "override transport"

/-- A distinguished transport standing in for a Client's own transport. -/
def ownTransport : HttpClient :=
  fun _ => .error "own transport"

/-- Witness for C9: all three precedence levels at concrete transports. -/
theorem transport_selection_precedence_witness :
    Client.getClient { client := some ownTransport } { client := some overrideTransport }
      = overrideTransport ∧
    Client.getClient { client := some ownTransport } {} = ownTransport ∧
    Client.getClient {} {} = defaultHttpClient :=
  ⟨(transport_selection_precedence { client := some ownTransport }
        { client := some overrideTransport }).1 overrideTransport rfl,
    (transport_selection_precedence { client := some ownTransport } {}).2.1
      rfl ownTransport rfl,
    (transport_selection_precedence {} {}).2.2 rfl rfl⟩

/-- A request built without a body always succeeds and carries exactly
the folded option headers. -/
theorem buildRequest_none_fst (c : Client) (ctx : Context) (method url : String)
    (options : Options) :
    (c.buildRequest ctx method url none options).1 =
      .ok { ctx := ctx, method := method, url := url, body := [],
            header := (options.headers.getD []).foldl
              (fun acc p => headerSet acc p.1 p.2) [] } := rfl

/-- A transport whose responses are empty successes, standing in for a
reachable server in concrete runs. -/
def stubTransport : HttpClient :=
  fun _ => .ok { statusCode := 200, status := "200 OK", body := .ok [] }

/-- A client whose own transport is the stub transport. -/
def cStub : Client := { client := some stubTransport }

/-- C6. Every request POST or PATCH hands to the transport carries
`Content-Type: application/json`, whatever Content-Type the options
supplied (the forced value is set after the user headers); GET, DELETE
and PUT force nothing: when no option header lives under the canonical
Content-Type key, the dispatched request has no Content-Type at all. -/
theorem content_type_forcing_policy (c : Client) (ctx : Context) (url : String)
    (body : Option GoValue) (hasResult : Bool) (opts : List OptionFn) :
    (∀ req ∈ sentRequests (Client.post c ctx url body hasResult opts).events,
        headerGet req.header "Content-Type" = some "application/json") ∧
    (∀ req ∈ sentRequests (Client.patch c ctx url body hasResult opts).events,
        headerGet req.header "Content-Type" = some "application/json") ∧
    ((∀ p ∈ (buildOptions opts).headers.getD [], canonicalKey p.1 ≠ "Content-Type") →
      (∀ req ∈ sentRequests (Client.get c ctx url hasResult opts).events,
          headerGet req.header "Content-Type" = none) ∧
      (∀ req ∈ sentRequests (Client.delete c ctx url hasResult opts).events,
          headerGet req.header "Content-Type" = none) ∧
      (∀ req ∈ sentRequests (Client.put c ctx url body hasResult opts).events,
          headerGet req.header "Content-Type" = none)) := by
  have hCT : canonicalKey "Content-Type" = "Content-Type" := by decide
  have hforce : ∀ verb, ∀ req ∈ sentRequests
      (Client.run c verb true ctx url body hasResult opts).events,
      headerGet req.header "Content-Type" = some "application/json" := by
    intro verb req hreq
    rw [run_sentRequests] at hreq
    cases hb : (c.buildRequest ctx verb url body (buildOptions opts)).1 with
    | error e => rw [hb] at hreq; simp at hreq
    | ok req0 =>
      rw [hb] at hreq
      simp at hreq
      subst hreq
      dsimp only
      rw [headerGet_headerSet, if_pos rfl]
  have hnone : ∀ verb (b : Option GoValue),
      (∀ p ∈ (buildOptions opts).headers.getD [], canonicalKey p.1 ≠ "Content-Type") →
      ∀ req ∈ sentRequests (Client.run c verb false ctx url b hasResult opts).events,
        headerGet req.header "Content-Type" = none := by
    intro verb b hno req hreq
    rw [run_sentRequests] at hreq
    cases hb : (c.buildRequest ctx verb url b (buildOptions opts)).1 with
    | error e => rw [hb] at hreq; simp at hreq
    | ok req0 =>
      rw [hb] at hreq
      simp at hreq
      subst hreq
      rw [buildRequest_ok_header c ctx verb url b (buildOptions opts) _ hb]
      rw [headerGet_foldl_of_ne]
      · rfl
      · intro p hp
        rw [hCT]
        exact hno p hp
  exact ⟨hforce "POST", hforce "PATCH",
    fun hno => ⟨hnone "GET" none hno, hnone "DELETE" none hno, hnone "PUT" body hno⟩⟩

/-- The request POST dispatches in the C6 witness run: the user-supplied
Content-Type has been overwritten by the forced value. -/
def reqPostWitness : Request :=
  { ctx := .background, method := "POST", url := "u", body := [],
    header := [("Content-Type", "application/json")] }

/-- The request GET dispatches in the C6 witness run: no Content-Type
was added. -/
def reqGetWitness : Request :=
  { ctx := .background, method := "GET", url := "u", body := [],
    header := [("X-Api-Key", "k")] }

/-- Witness for C6: a POST that asked for `Content-Type: text/plain`
still goes out as `application/json`, and a GET with an unrelated header
goes out with no Content-Type. -/
theorem content_type_forcing_policy_witness :
    headerGet reqPostWitness.header "Content-Type" = some "application/json" ∧
    headerGet reqGetWitness.header "Content-Type" = none :=
  ⟨(content_type_forcing_policy cStub .background "u" none false
      [withHeader "Content-Type" "text/plain"]).1 reqPostWitness (by decide),
    ((content_type_forcing_policy cStub .background "u" none false
      [withHeader "X-Api-Key" "k"]).2.2 (by decide)).1 reqGetWitness (by decide)⟩

/-- C8. `WithHeaders(m)` replaces the whole accumulated header map with
`m` instead of merging: after any earlier options, the folded options
carry exactly `m`; in particular `WithHeader("A","1")` followed by
`WithHeaders({"B":"2"})` dispatches a request with no header A and with
header B equal to 2. -/
theorem withHeaders_replaces_accumulated (opts : List OptionFn)
    (m : List (String × String)) (c : Client) (ctx : Context) (url : String)
    (hasResult : Bool) :
    (buildOptions (opts ++ [withHeaders m])).headers = some m ∧
    (∀ req ∈ sentRequests (Client.get c ctx url hasResult
        [withHeader "A" "1", withHeaders [("B", "2")]]).events,
      headerGet req.header "A" = none ∧ headerGet req.header "B" = some "2") := by
  constructor
  · rw [buildOptions, List.foldl_append]
    rfl
  · intro req hreq
    simp only [Client.get] at hreq
    rw [run_sentRequests, buildRequest_none_fst] at hreq
    simp at hreq
    subst hreq
    dsimp only
    exact ⟨by decide, by decide⟩

/-- The request the C8 witness run dispatches: header A is gone, header
B survives. -/
def reqBWitness : Request :=
  { ctx := .background, method := "GET", url := "u", body := [],
    header := [("B", "2")] }

/-- Witness for C8: the replacement at a concrete option list and the
dispatched request of the example. -/
theorem withHeaders_replaces_accumulated_witness :
    (buildOptions ([withHeader "A" "1"] ++ [withHeaders [("B", "2")]])).headers =
      some [("B", "2")] ∧
    (headerGet reqBWitness.header "A" = none ∧
      headerGet reqBWitness.header "B" = some "2") :=
  ⟨(withHeaders_replaces_accumulated [withHeader "A" "1"] [("B", "2")]
      cStub .background "u" false).1,
    (withHeaders_replaces_accumulated [] [] cStub .background "u" false).2
      reqBWitness (by decide)⟩

/-- C10. Options are folded left-to-right, so a later mutator acts on
the result of the earlier ones; in particular `WithHeader("X","1")`
followed by `WithHeader("X","2")` folds to the single binding X to 2 and
the dispatched request carries exactly one X header, valued 2. -/
theorem options_fold_later_wins (opts : List OptionFn) (f : OptionFn) (c : Client)
    (ctx : Context) (url : String) (hasResult : Bool) :
    buildOptions (opts ++ [f]) = f (buildOptions opts) ∧
    (buildOptions [withHeader "X" "1", withHeader "X" "2"]).headers =
      some [("X", "2")] ∧
    (∀ req ∈ sentRequests (Client.get c ctx url hasResult
        [withHeader "X" "1", withHeader "X" "2"]).events,
      req.header.filter (fun p => p.1 = "X") = [("X", "2")]) := by
  refine ⟨?_, by decide, ?_⟩
  · rw [buildOptions, List.foldl_append]
    rfl
  · intro req hreq
    simp only [Client.get] at hreq
    rw [run_sentRequests, buildRequest_none_fst] at hreq
    simp at hreq
    subst hreq
    dsimp only
    decide

/-- The request the C10 witness run dispatches: one X header, value 2. -/
def reqXWitness : Request :=
  { ctx := .background, method := "GET", url := "u", body := [],
    header := [("X", "2")] }

/-- Witness for C10: the fold equation at a concrete option list, and
the single X header of the example's dispatched request. -/
theorem options_fold_later_wins_witness :
    buildOptions ([withStatus] ++ [withHeader "K" "V"]) =
      withHeader "K" "V" (buildOptions [withStatus]) ∧
    reqXWitness.header.filter (fun p => p.1 = "X") = [("X", "2")] :=
  ⟨(options_fold_later_wins [withStatus] (withHeader "K" "V")
      cStub .background "u" false).1,
    (options_fold_later_wins [] (withHeader "K" "V")
      cStub .background "u" false).2.2 reqXWitness (by decide)⟩

/-- The spec's passthrough example body: the raw bytes of the JSON text
with key a and value 1. -/
def rawJsonBytes : Bytes := [123, 34, 97, 34, 58, 49, 125]

/-- C1 (refuted by the code): the source's marshal step has no byte
passthrough — a POST whose body is the raw byte sequence of the spec's
example still invokes the marshal collaborator, and the wire payload is
the quoted base64 rendering produced by `json.Marshal` (the byte text of
`"eyJhIjoxfQ=="`), not the raw bytes; with a configured marshal function
that function's output goes on the wire instead of the bytes as well. -/
theorem byte_body_is_marshalled_not_passed_through :
    marshalCalls (Client.post cStub .background "https://example"
      (some (.bytes rawJsonBytes)) false []).events = [.bytes rawJsonBytes] ∧
    (sentRequests (Client.post cStub .background "https://example"
      (some (.bytes rawJsonBytes)) false []).events).map Request.body =
      [[34, 101, 121, 74, 104, 73, 106, 111, 120, 102, 81, 61, 61, 34]] ∧
    [34, 101, 121, 74, 104, 73, 106, 111, 120, 102, 81, 61, 61, 34] ≠ rawJsonBytes ∧
    (sentRequests (Client.post
        { client := some stubTransport, marshalFunc := some (fun _ => .ok [0]) }
        .background "https://example"
        (some (.bytes rawJsonBytes)) false []).events).map Request.body = [[0]] := by
  exact ⟨by decide, by decide, by decide, by decide⟩

end HttpClientGo
